import Mathlib

/-!
Shallow embedding of the core of jrenner/rust-aws-logs (src/main.rs).

The program drives a token-paginated log-retrieval API: fetch_entire_log
accumulates pages until an empty page or a stable forward token, then
stably sorts by timestamp; fetch_entire_log_cached wraps it with a
file-backed cache keyed by sanitized group/stream names;
get_sorted_log_stream_names enumerates stream names through a
token-paginated listing; the preview path in main fans out bounded
single-page fetches and renders them to text.

External collaborators (the aws CLI / SDK calls, the filesystem) are
modelled as explicit function parameters: a page-fetch behavior, a
listing-fetch behavior, and a read-only view of the backing store, with
writes returned explicitly.  Rust panics are modelled as error results;
possibly non-terminating loops take an explicit fuel argument and return
none when the fuel runs out (so none means: still looping after that
many iterations).
-/

namespace AwsLogs

/-- One log event, from struct Event in main.rs: timestamp (u64),
message, ingestionTime (u64).  Machine integers are modelled as Nat
since the program only compares them. -/
structure Event where
  timestamp : Nat
  message : String
  ingestionTime : Nat
deriving DecidableEq, Repr

/-- One page of the get-log-events response, from struct EventLog in
main.rs: events, nextForwardToken, nextBackwardToken. -/
structure EventLog where
  events : List Event
  nextForwardToken : String
  nextBackwardToken : String
deriving DecidableEq, Repr

deriving instance DecidableEq for Except

/-- The comparator used by all_events.sort_by on line 170/212 of
main.rs: compare events by timestamp only. -/
def eventTsLe (a b : Event) : Prop := a.timestamp ≤ b.timestamp

instance : DecidableRel eventTsLe := fun a b => Nat.decLe a.timestamp b.timestamp

instance : IsTotal Event eventTsLe := ⟨fun a b => Nat.le_total a.timestamp b.timestamp⟩

instance : IsTrans Event eventTsLe := ⟨fun _ _ _ h h2 => Nat.le_trans h h2⟩

/-- Rust Vec::sort_by is a stable sort; the stable sort of a list under
a total transitive comparator is a unique function, here realized by
insertion sort (structural, hence executable in the kernel). -/
def sortEventsByTimestamp (events : List Event) : List Event :=
  List.insertionSort eventTsLe events

/-- Model of Rust char::is_alphanumeric as used in clean_path_str.
Char.isAlphanum agrees with it on ASCII input. -/
def isAlphanumeric (c : Char) : Bool := c.isAlphanum

/-- clean_path_str from main.rs lines 95-106: replace every character
that is not alphanumeric with an underscore. -/
def cleanPathStr (path : String) : String :=
  String.mk (path.data.map (fun c => if isAlphanumeric c then c else '_'))

/-- Model of str::starts_with("/") used on lines 158 and 175. -/
def startsWithSlash (s : String) : Bool := List.isPrefixOf ['/'] s.data

/-- Model of Rust str::trim: drop whitespace from both ends. -/
def rustTrim (s : String) : String :=
  String.mk (((s.data.dropWhile Char.isWhitespace).reverse.dropWhile
    Char.isWhitespace).reverse)

/-- Model of Vec::join("\x0a") on a list of strings. -/
def joinNewline : List String → String
  | [] => ""
  | [s] => s
  | s :: rest => s ++ "\n" ++ joinNewline rest

/-- get_text_from_events from main.rs lines 251-258: trim every message
and join the results with newlines. -/
def getTextFromEvents (events : List Event) : String :=
  joinNewline (events.map (fun e => rustTrim e.message))

/-- The page-fetch capability (the external behavior behind
fetch_single_log_page): log group, log stream, optional forward token,
optional limit; returns a page or the error text. -/
def PageFetch : Type :=
  String → String → Option String → Option Int → Except String EventLog

/-- fetch_first_n_events from main.rs lines 157-172: panic if the
stream name starts with a slash, fetch one page with the given limit
and no token, and return its events sorted by timestamp. -/
def fetchFirstNEvents (fetchPage : PageFetch) (logGroup logStream : String)
    (limit : Int) : Except String (List Event) :=
  if startsWithSlash logStream then
    .error ("log_stream should probably not begin with / -> " ++ logStream)
  else
    match fetchPage logGroup logStream none (some limit) with
    | .error e => .error ("failed to fetch single log page: " ++ e)
    | .ok eventLog => .ok (sortEventsByTimestamp eventLog.events)

/-- The retrieval loop of fetch_entire_log, main.rs lines 183-210.
Fuel counts remaining iterations; none means the fuel ran out while the
loop was still going.  An error result models the panic on a failed
page fetch.  On each iteration: break on an empty page; otherwise
append the events; break if the token was already set and the new
forward token equals it; otherwise continue with the forward token. -/
def fetchEntireLogLoop (fetchPage : PageFetch) (logGroup logStream : String) :
    Nat → Option String → List Event → Option (Except String (List Event))
  | 0, _, _ => none
  | fuel + 1, currentToken, allEvents =>
    match fetchPage logGroup logStream currentToken none with
    | .error e => some (.error ("failed to fetch single log page: " ++ e))
    | .ok eventLog =>
      if eventLog.events.length = 0 then
        some (.ok allEvents)
      else
        let newEvents := allEvents ++ eventLog.events
        let forwardToken := eventLog.nextForwardToken
        match currentToken with
        | some ct =>
          if ct = forwardToken then
            some (.ok newEvents)
          else
            fetchEntireLogLoop fetchPage logGroup logStream fuel
              (some forwardToken) newEvents
        | none =>
          fetchEntireLogLoop fetchPage logGroup logStream fuel
            (some forwardToken) newEvents

/-- fetch_entire_log from main.rs lines 174-214: panic if the stream
name starts with a slash, run the retrieval loop from a fresh state,
then stably sort everything by timestamp. -/
def fetchEntireLog (fetchPage : PageFetch) (logGroup logStream : String)
    (fuel : Nat) : Option (Except String (List Event)) :=
  if startsWithSlash logStream then
    some (.error ("log_stream should probably not begin with / -> " ++ logStream))
  else
    (fetchEntireLogLoop fetchPage logGroup logStream fuel none []).map
      (fun r => r.map sortEventsByTimestamp)

/-- A token of the persisted cache blob.  The serde_json serialization
used by the cache is external to the repository; it is modelled as a
token stream carrying exactly the fields of each event in order. -/
inductive BlobToken where
  | nat : Nat → BlobToken
  | str : String → BlobToken
deriving DecidableEq, Repr

/-- Model of serde_json::to_string on a Vec of events (main.rs line
238): emit the three fields of each event in order. -/
def serializeEvents : List Event → List BlobToken
  | [] => []
  | e :: rest =>
    BlobToken.nat e.timestamp :: BlobToken.str e.message ::
      BlobToken.nat e.ingestionTime :: serializeEvents rest

/-- Model of serde_json::from_str back to a Vec of events (main.rs line
229): parse field triples; none models a parse failure (which the code
turns into a panic via unwrap). -/
def deserializeEvents : List BlobToken → Option (List Event)
  | [] => some []
  | BlobToken.nat ts :: BlobToken.str msg :: BlobToken.nat ing :: rest =>
    (deserializeEvents rest).map (fun evs => ⟨ts, msg, ing⟩ :: evs)
  | _ => none

/-- The two-level cache path of main.rs lines 219-224, below the fixed
cache directory: sanitized group name, then sanitized stream name. -/
def CacheKey : Type := String × String
deriving instance DecidableEq for CacheKey

/-- Derive the cache key of a collection identity. -/
def cacheKey (logGroup logStream : String) : CacheKey :=
  (cleanPathStr logGroup, cleanPathStr logStream)

/-- Read-only view of the backing store: none models both a missing
entry and a failed read (fs::read_to_string Err), which the code
treats identically. -/
def CacheStore : Type := CacheKey → Option (List BlobToken)

/-- fetch_entire_log_cached from main.rs lines 216-249.  Returns the
resulting events (or the panic text) together with the list of writes
performed on the backing store.  With caching on, a readable entry is
deserialized and returned; otherwise the full retrieval runs; in
either successful case the events are re-serialized and written back
under the cache key (the write on line 243 is unconditional).  none
propagates fuel exhaustion of the inner retrieval loop. -/
def fetchEntireLogCached (fetchPage : PageFetch) (logGroup logStream : String)
    (useCache : Bool) (store : CacheStore) (fuel : Nat) :
    Option (Except String (List Event) × List (CacheKey × List BlobToken)) :=
  if useCache then
    let key := cacheKey logGroup logStream
    match store key with
    | some blob =>
      match deserializeEvents blob with
      | none => some (.error "called unwrap on a failed deserialization", [])
      | some events => some (.ok events, [(key, serializeEvents events)])
    | none =>
      match fetchEntireLog fetchPage logGroup logStream fuel with
      | none => none
      | some (.error e) => some (.error e, [])
      | some (.ok events) => some (.ok events, [(key, serializeEvents events)])
  else
    (fetchEntireLog fetchPage logGroup logStream fuel).map (fun r => (r, []))

/-- Apply a list of writes to a store view, in order. -/
def applyWrites (store : CacheStore) (writes : List (CacheKey × List BlobToken)) :
    CacheStore :=
  writes.foldl (fun st w => fun k => if k = w.1 then some w.2 else st k) store

/-- One stream descriptor of the SDK describe-log-streams response: the
SDK exposes both fields as optional, and the stream carries a creation
time that get_sorted_log_stream_names never looks at. -/
structure SdkLogStream where
  logStreamName : Option String
  creationTime : Int
deriving DecidableEq, Repr

/-- The SDK describe-log-streams response as consumed on main.rs lines
270-283: an optional list of streams and an optional next token. -/
structure DescribeLogStreamsResponse where
  logStreams : Option (List SdkLogStream)
  nextToken : Option String
deriving DecidableEq, Repr

/-- The listing-fetch capability: optional continuation token in, one
response page or the transport error text out. -/
def ListingFetch : Type :=
  Option String → Except String DescribeLogStreamsResponse

/-- Boolean lexicographic order on character lists, modelling the Ord
instance Rust uses for String in Vec::sort. -/
def lexLe : List Char → List Char → Bool
  | [], _ => true
  | c :: cs, d :: ds => if c < d then true else if c = d then lexLe cs ds else false
  | _, [] => false

/-- Lexicographic order on strings, as a relation for insertionSort. -/
def strLe (a b : String) : Prop := lexLe a.data b.data = true

instance : DecidableRel strLe := fun a b => instDecidableEqBool (lexLe a.data b.data) true

/-- Model of the map on main.rs lines 277-280: unwrap every optional
stream name; none models the panic when a name is absent. -/
def unwrapNames : List SdkLogStream → Option (List String)
  | [] => some []
  | s :: rest =>
    match s.logStreamName with
    | none => none
    | some n => (unwrapNames rest).map (fun ns => n :: ns)

/-- The enumeration loop of get_sorted_log_stream_names, main.rs lines
264-287, with fuel: none means the fuel ran out while the token was
still present.  A failed send (unwrap on line 270) and an absent name
are modelled as error results; an absent logStreams field returns the
error on line 274.  When the returned token is absent the loop breaks
and the accumulated names are sorted lexicographically (line 288). -/
def getSortedLogStreamNamesLoop (respond : ListingFetch) :
    Nat → Option String → List String → Option (Except String (List String))
  | 0, _, _ => none
  | fuel + 1, nextToken, acc =>
    match respond nextToken with
    | .error e => some (.error ("called unwrap on a failed send: " ++ e))
    | .ok response =>
      match response.logStreams with
      | none => some (.error "log_streams_option is None")
      | some logStreams =>
        match unwrapNames logStreams with
        | none => some (.error "called unwrap on an absent log stream name")
        | some names =>
          let acc2 := acc ++ names
          match response.nextToken with
          | none => some (.ok (List.insertionSort strLe acc2))
          | some t => getSortedLogStreamNamesLoop respond fuel (some t) acc2

/-- get_sorted_log_stream_names from main.rs lines 261-290: run the
enumeration loop from a fresh state. -/
def getSortedLogStreamNames (respond : ListingFetch) (fuel : Nat) :
    Option (Except String (List String)) :=
  getSortedLogStreamNamesLoop respond fuel none []

/-- One stream descriptor of the CLI describe-log-streams JSON, from
struct LogStream in main.rs lines 87-93: name and creation time. -/
structure LogStream where
  logStreamName : String
  creationTime : Int
deriving DecidableEq, Repr

/-- The CLI describe-log-streams JSON payload, from struct
LogStreamsResponse in main.rs lines 81-84. -/
structure LogStreamsResponse where
  logStreams : List LogStream
deriving DecidableEq, Repr

/-- The sort key used by sort_by_key on main.rs line 313: creation
time. -/
def ctLe (a b : LogStream) : Prop := a.creationTime ≤ b.creationTime

instance : DecidableRel ctLe := fun a b => Int.decLe a.creationTime b.creationTime

instance : IsTotal LogStream ctLe := ⟨fun a b => Int.le_total a.creationTime b.creationTime⟩

instance : IsTrans LogStream ctLe := ⟨fun _ _ _ h h2 => Int.le_trans h h2⟩

/-- get_sorted_log_stream_names_old from main.rs lines 292-323, taking
the outcome of running and parsing the CLI call (its external part):
stably sort the streams by creation time, then project to names. -/
def getSortedLogStreamNamesOld (cmdResult : Except String LogStreamsResponse) :
    Except String (List String) :=
  match cmdResult with
  | .error e => .error e
  | .ok resp =>
    .ok ((List.insertionSort ctLe resp.logStreams).map (fun s => s.logStreamName))

/-- The preview fan-out of main.rs lines 392-397, sequentialized: the
rayon par_iter produces a map keyed by name whose contents do not
depend on scheduling order, so it is modelled as a left-to-right
traversal over the selected names; any single failure (the panic
inside fetch_first_n_events) aborts the whole batch. -/
def previewFanout (fetchPage : PageFetch) (logGroup : String) :
    List String → Int → Except String (List (String × String))
  | [], _ => .ok []
  | s :: rest, n =>
    match fetchFirstNEvents fetchPage logGroup s n with
    | .error e => .error e
    | .ok events =>
      match previewFanout fetchPage logGroup rest n with
      | .error e => .error e
      | .ok pairs => .ok ((s, getTextFromEvents events) :: pairs)

/-- The preview block of main, main.rs lines 382-397, with the stream
count and fetch count as parameters: select the last previewAmount
names in reverse order (iter().rev().take(previewAmount)) and fan out
a bounded single-page fetch for each. -/
def buildLogstreamPreviews (fetchPage : PageFetch) (logGroup : String)
    (logStreamNames : List String) (previewAmount : Nat) (n : Int) :
    Except String (List (String × String)) :=
  previewFanout fetchPage logGroup (logStreamNames.reverse.take previewAmount) n

/-- The constant preview_amount = 6 hardcoded on main.rs line 384. -/
def mainPreviewAmount : Nat := 6

/-- The constant n = 10 hardcoded on main.rs line 393. -/
def mainPreviewFetchCount : Int := 10

/-- The preview map exactly as main builds it, with its constants. -/
def mainLogstreamPreviews (fetchPage : PageFetch) (logGroup : String)
    (logStreamNames : List String) : Except String (List (String × String)) :=
  buildLogstreamPreviews fetchPage logGroup logStreamNames mainPreviewAmount
    mainPreviewFetchCount

/-! Helper lemmas shared between the claims. -/

/-- Insertion sort is stable: filtering the output by any predicate
whose holders are pairwise related recovers the corresponding filter of
the input, in input order. -/
theorem insertionSort_filter_of_tied {α : Type} (r : α → α → Prop) [DecidableRel r]
    (p : α → Bool) (l : List α)
    (tied : ∀ a b, p a = true → p b = true → r a b) :
    (List.insertionSort r l).filter p = l.filter p := by
  have hself : (l.filter p).filter p = l.filter p :=
    List.filter_eq_self.mpr (fun a ha => (List.mem_filter.mp ha).2)
  have hsub : List.Sublist (l.filter p) (List.insertionSort r l) := by
    apply List.sublist_insertionSort
    · exact List.pairwise_of_forall_mem_list (fun a ha b hb =>
        tied a b (List.mem_filter.mp ha).2 (List.mem_filter.mp hb).2)
    · exact List.filter_sublist l
  have hsub2 : List.Sublist (l.filter p) ((List.insertionSort r l).filter p) := by
    have := List.Sublist.filter p hsub
    rwa [hself] at this
  have hlen : ((List.insertionSort r l).filter p).length = (l.filter p).length :=
    ((List.perm_insertionSort r l).filter p).length_eq
  exact (hsub2.eq_of_length hlen.symm).symm

/-- Deserializing a serialized record sequence recovers it exactly. -/
theorem deserializeEvents_serializeEvents (evs : List Event) :
    deserializeEvents (serializeEvents evs) = some evs := by
  induction evs with
  | nil => rfl
  | cons e rest ih => simp [serializeEvents, deserializeEvents, ih]

/-- When every selected stream fetches cleanly, the preview fan-out
produces one rendered pair per selected name, in selection order. -/
theorem previewFanout_ok (fetchPage : PageFetch) (logGroup : String) (n : Int)
    (pages : String → EventLog) :
    ∀ sel : List String,
      (∀ s ∈ sel, startsWithSlash s = false ∧
        fetchPage logGroup s none (some n) = .ok (pages s)) →
      previewFanout fetchPage logGroup sel n =
        .ok (sel.map (fun s =>
          (s, getTextFromEvents (sortEventsByTimestamp (pages s).events))))
  | [], _ => rfl
  | s :: rest, h => by
    have hs := h s (List.mem_cons_self s rest)
    have ih := previewFanout_ok fetchPage logGroup n pages rest
      (fun x hx => h x (List.mem_cons_of_mem s hx))
    simp [previewFanout, fetchFirstNEvents, hs.1, hs.2, ih]

/-! Claim theorems. -/

/-- C1: for every page-fetch behavior in which, after the first
non-empty page, the returned forward token equals the token the page
was requested with, and an empty page never occurs, fetch_entire_log
terminates: as soon as current_token was already set and the new
forward token equals it, the retrieval loop exits, so two iterations of
fuel always suffice. -/
theorem fetchEntireLog_tokenStable_terminates
    (fetchPage : PageFetch) (logGroup logStream : String)
    (hs : startsWithSlash logStream = false)
    (hok : ∀ tok, ∃ el, fetchPage logGroup logStream tok none = Except.ok el ∧
      el.events ≠ [])
    (hstable : ∀ t el, fetchPage logGroup logStream (some t) none = Except.ok el →
      el.nextForwardToken = t) :
    ∀ fuel, 2 ≤ fuel → ∃ evs,
      fetchEntireLog fetchPage logGroup logStream fuel = some (Except.ok evs) := by
  intro fuel hfuel
  obtain ⟨k, rfl⟩ : ∃ k, fuel = k + 2 := ⟨fuel - 2, by omega⟩
  obtain ⟨el0, h0, hne0⟩ := hok none
  obtain ⟨el1, h1, hne1⟩ := hok (some el0.nextForwardToken)
  have hst : el1.nextForwardToken = el0.nextForwardToken :=
    hstable el0.nextForwardToken el1 h1
  have hl0 : ¬el0.events.length = 0 := by simpa [List.length_eq_zero] using hne0
  have hl1 : ¬el1.events.length = 0 := by simpa [List.length_eq_zero] using hne1
  refine ⟨sortEventsByTimestamp (([] ++ el0.events) ++ el1.events), ?_⟩
  simp [fetchEntireLog, hs, fetchEntireLogLoop, h0, h1, hl0, hl1, hst, Except.map]

/-- Concrete page-fetch behavior whose forward token always echoes the
requested token, with non-empty pages. -/
def tokenStableFetch : PageFetch :=
  fun _ _ tok _ => Except.ok ⟨[⟨1, "m", 2⟩], tok.getD "tok0", "bwd"⟩

/-- Witness for C1 at a concrete token-echoing behavior. -/
theorem fetchEntireLog_tokenStable_terminates_witness :
    ∃ evs, fetchEntireLog tokenStableFetch "grp" "str" 2 = some (Except.ok evs) :=
  fetchEntireLog_tokenStable_terminates tokenStableFetch "grp" "str" (by decide)
    (fun tok => ⟨⟨[⟨1, "m", 2⟩], tok.getD "tok0", "bwd"⟩, rfl, by simp⟩)
    (fun t el h => by
      have h2 : (⟨[⟨1, "m", 2⟩], t, "bwd"⟩ : EventLog) = el := by
        simpa [tokenStableFetch] using h
      rw [← h2])
    2 (le_refl 2)

/-- C2: for every terminating run of fetch_entire_log, the returned
sequence is a permutation of the records accumulated from the fetched
pages, sorted ascending by timestamp, and the sort is stable: records
with any given timestamp appear exactly as they did in fetch order. -/
theorem fetchEntireLog_returns_stable_sorted
    (fetchPage : PageFetch) (logGroup logStream : String) (fuel : Nat)
    (acc : List Event)
    (hs : startsWithSlash logStream = false)
    (hrun : fetchEntireLogLoop fetchPage logGroup logStream fuel none [] =
      some (Except.ok acc)) :
    ∃ out, fetchEntireLog fetchPage logGroup logStream fuel = some (Except.ok out) ∧
      out.Perm acc ∧ List.Sorted eventTsLe out ∧
      ∀ t : Nat, out.filter (fun e => e.timestamp == t) =
        acc.filter (fun e => e.timestamp == t) := by
  refine ⟨sortEventsByTimestamp acc, ?_, ?_, ?_, ?_⟩
  · simp [fetchEntireLog, hs, hrun, Except.map, sortEventsByTimestamp]
  · exact List.perm_insertionSort eventTsLe acc
  · exact List.sorted_insertionSort eventTsLe acc
  · intro t
    refine insertionSort_filter_of_tied eventTsLe _ acc ?_
    intro a b ha hb
    have ha2 : a.timestamp = t := by simpa using ha
    have hb2 : b.timestamp = t := by simpa using hb
    show a.timestamp ≤ b.timestamp
    rw [ha2, hb2]

/-- Concrete behavior: one page with three events (two of them tied),
then an empty page. -/
def twoPageFetch : PageFetch :=
  fun _ _ tok _ =>
    match tok with
    | none => Except.ok ⟨[⟨5, "b", 1⟩, ⟨5, "a", 2⟩, ⟨3, "c", 3⟩], "t1", "b1"⟩
    | some _ => Except.ok ⟨[], "t2", "b2"⟩

/-- Witness for C2 at a concrete terminating run. -/
theorem fetchEntireLog_returns_stable_sorted_witness :
    ∃ out, fetchEntireLog twoPageFetch "grp" "str" 2 = some (Except.ok out) ∧
      out.Perm [⟨5, "b", 1⟩, ⟨5, "a", 2⟩, ⟨3, "c", 3⟩] ∧
      List.Sorted eventTsLe out ∧
      ∀ t : Nat, out.filter (fun e => e.timestamp == t) =
        [Event.mk 5 "b" 1, Event.mk 5 "a" 2, Event.mk 3 "c" 3].filter
          (fun e => e.timestamp == t) :=
  fetchEntireLog_returns_stable_sorted twoPageFetch "grp" "str" 2
    [⟨5, "b", 1⟩, ⟨5, "a", 2⟩, ⟨3, "c", 3⟩] (by decide) (by rfl)

/-- Listing behavior whose continuation token never becomes absent:
every response carries one stream and the token "tokenA". -/
def loopingListing : ListingFetch :=
  fun _ => Except.ok ⟨some [⟨some "streamA", 1⟩], some "tokenA"⟩

/-- C3 counterexample: against a listing behavior whose token never
becomes absent, get_sorted_log_stream_names raises no failure at any
iteration bound; after 5 and even after 100 iterations it is still
looping, because the code has no iteration ceiling at all. -/
theorem getSortedLogStreamNames_no_ceiling_cex :
    getSortedLogStreamNames loopingListing 5 = none ∧
    getSortedLogStreamNames loopingListing 100 = none := by
  constructor
  · rfl
  · rfl

/-- C3 amended: get_sorted_log_stream_names has no iteration ceiling.
For every listing behavior that always succeeds with a present token,
the enumeration loop never exits, whatever the iteration bound, and in
particular never produces an EnumerationError. -/
theorem getSortedLogStreamNamesLoop_none_of_token_persists
    (respond : ListingFetch)
    (hresp : ∀ tok, ∃ streams names t,
      respond tok = Except.ok ⟨some streams, some t⟩ ∧
      unwrapNames streams = some names) :
    ∀ fuel tok acc, getSortedLogStreamNamesLoop respond fuel tok acc = none := by
  intro fuel
  induction fuel with
  | zero => intro tok acc; rfl
  | succ k ih =>
    intro tok acc
    obtain ⟨streams, names, t, h1, h2⟩ := hresp tok
    simp [getSortedLogStreamNamesLoop, h1, h2, ih]

/-- Witness for the amended C3 at the concrete looping behavior. -/
theorem getSortedLogStreamNamesLoop_none_of_token_persists_witness :
    getSortedLogStreamNamesLoop loopingListing 3 none [] = none :=
  getSortedLogStreamNamesLoop_none_of_token_persists loopingListing
    (fun _ => ⟨[⟨some "streamA", 1⟩], ["streamA"], "tokenA", rfl, rfl⟩)
    3 none []

/-- A backing store holding one readable entry under the key of the
identity (group-a, stream-a). -/
def hitStore : CacheStore :=
  fun k => if k = cacheKey "group-a" "stream-a" then
    some (serializeEvents [⟨5, "hello", 6⟩]) else none

/-- A page-fetch behavior that always fails, so any successful result
can only have come from the cache. -/
def failingPageFetch : PageFetch := fun _ _ _ _ => Except.error "network down"

/-- C4 counterexample: on a cache hit (the fetch behavior always fails
and the fuel is zero, so the returned records can only come from the
persisted entry), fetch_entire_log_cached still performs a write to the
backing store: the write on the hit path is unconditional, so the cache
is not write-once per key. -/
theorem fetchEntireLogCached_writes_on_hit_cex :
    fetchEntireLogCached failingPageFetch "group-a" "stream-a" true hitStore 0 =
      some (Except.ok [⟨5, "hello", 6⟩],
        [(cacheKey "group-a" "stream-a", serializeEvents [⟨5, "hello", 6⟩])]) ∧
    ([(cacheKey "group-a" "stream-a", serializeEvents [⟨5, "hello", 6⟩])] :
      List (CacheKey × List BlobToken)) ≠ [] := by
  constructor
  · rfl
  · simp

/-- C4 amended: with caching enabled, every successful call writes the
serialized result exactly once under the cache key of the identity, on
the hit path just as on the miss path; only failing calls do not
write. -/
theorem fetchEntireLogCached_always_writes_on_success
    (fetchPage : PageFetch) (logGroup logStream : String) (store : CacheStore)
    (fuel : Nat) (res : Except String (List Event))
    (writes : List (CacheKey × List BlobToken))
    (h : fetchEntireLogCached fetchPage logGroup logStream true store fuel =
      some (res, writes)) :
    (∀ evs, res = Except.ok evs →
      writes = [(cacheKey logGroup logStream, serializeEvents evs)]) ∧
    (∀ e, res = Except.error e → writes = []) := by
  unfold fetchEntireLogCached at h
  simp only [if_true] at h
  cases hstore : store (cacheKey logGroup logStream) with
  | some blob =>
    simp only [hstore] at h
    cases hdes : deserializeEvents blob with
    | none =>
      simp only [hdes, Option.some_inj, Prod.mk.injEq] at h
      refine ⟨fun evs hok => ?_, fun e herr => ?_⟩
      · rw [← h.1] at hok; cases hok
      · exact h.2.symm
    | some events =>
      simp only [hdes, Option.some_inj, Prod.mk.injEq] at h
      refine ⟨fun evs hok => ?_, fun e herr => ?_⟩
      · rw [← h.1] at hok
        cases hok
        exact h.2.symm
      · rw [← h.1] at herr; cases herr
  | none =>
    simp only [hstore] at h
    cases hfe : fetchEntireLog fetchPage logGroup logStream fuel with
    | none => simp only [hfe] at h; cases h
    | some r =>
      simp only [hfe] at h
      cases r with
      | error e =>
        simp only [Option.some_inj, Prod.mk.injEq] at h
        refine ⟨fun evs hok => ?_, fun e2 herr => ?_⟩
        · rw [← h.1] at hok; cases hok
        · exact h.2.symm
      | ok events =>
        simp only [Option.some_inj, Prod.mk.injEq] at h
        refine ⟨fun evs hok => ?_, fun e herr => ?_⟩
        · rw [← h.1] at hok
          cases hok
          exact h.2.symm
        · rw [← h.1] at herr; cases herr

/-- C5: with caching enabled and an initially empty backing store, a
second call for the same identity returns exactly the record sequence
of the first call, whatever page-fetch behavior the second call is
given (in particular one that always errors): the hit deserializes the
entry written by the first call, which round-trips, and no fetch can
influence the result. -/
theorem fetchEntireLogCached_second_call_uses_cache
    (f1 f2 : PageFetch) (logGroup logStream : String) (fuel fuel2 : Nat)
    (store0 : CacheStore) (evs : List Event)
    (writes : List (CacheKey × List BlobToken))
    (hempty : ∀ k, store0 k = none)
    (h1 : fetchEntireLogCached f1 logGroup logStream true store0 fuel =
      some (Except.ok evs, writes)) :
    fetchEntireLogCached f2 logGroup logStream true (applyWrites store0 writes)
      fuel2 =
      some (Except.ok evs, [(cacheKey logGroup logStream, serializeEvents evs)]) := by
  unfold fetchEntireLogCached at h1
  simp only [if_true, hempty] at h1
  cases hfe : fetchEntireLog f1 logGroup logStream fuel with
  | none => simp only [hfe] at h1; cases h1
  | some r =>
    simp only [hfe] at h1
    cases r with
    | error e => simp only [Option.some_inj, Prod.mk.injEq] at h1; cases h1.1
    | ok evs2 =>
      simp only [Option.some_inj, Prod.mk.injEq, Except.ok.injEq] at h1
      obtain ⟨heq, hw⟩ := h1
      cases heq
      have hkey : applyWrites store0 writes (cacheKey logGroup logStream) =
          some (serializeEvents evs) := by
        rw [← hw]
        simp [applyWrites, hempty]
      unfold fetchEntireLogCached
      simp [hkey, deserializeEvents_serializeEvents]

/-- Witness for C5: a one-page retrieval followed by a call whose fetch
behavior always fails still returns the first result. -/
theorem fetchEntireLogCached_second_call_uses_cache_witness :
    fetchEntireLogCached failingPageFetch "grp" "str" true
      (applyWrites (fun _ => none)
        [(cacheKey "grp" "str",
          serializeEvents [⟨3, "c", 3⟩, ⟨5, "b", 1⟩, ⟨5, "a", 2⟩])]) 0 =
      some (Except.ok [⟨3, "c", 3⟩, ⟨5, "b", 1⟩, ⟨5, "a", 2⟩],
        [(cacheKey "grp" "str",
          serializeEvents [⟨3, "c", 3⟩, ⟨5, "b", 1⟩, ⟨5, "a", 2⟩])]) :=
  fetchEntireLogCached_second_call_uses_cache twoPageFetch failingPageFetch
    "grp" "str" 2 0 (fun _ => none)
    [⟨3, "c", 3⟩, ⟨5, "b", 1⟩, ⟨5, "a", 2⟩]
    [(cacheKey "grp" "str",
      serializeEvents [⟨3, "c", 3⟩, ⟨5, "b", 1⟩, ⟨5, "a", 2⟩])]
    (fun _ => rfl) (by rfl)

/-- Positional agreement on the alphanumeric test, and on the
characters that pass it, makes the sanitizing map agree. -/
theorem cleanChars_congr (l1 l2 : List Char) (hlen : l1.length = l2.length)
    (hagree : ∀ i, i < l1.length →
      isAlphanumeric (l1.getD i ' ') = isAlphanumeric (l2.getD i ' ') ∧
      (isAlphanumeric (l1.getD i ' ') = true → l1.getD i ' ' = l2.getD i ' ')) :
    l1.map (fun c => if isAlphanumeric c then c else '_') =
      l2.map (fun c => if isAlphanumeric c then c else '_') := by
  induction l1 generalizing l2 with
  | nil =>
    cases l2 with
    | nil => rfl
    | cons d ds => simp at hlen
  | cons c cs ih =>
    cases l2 with
    | nil => simp at hlen
    | cons d ds =>
      have h0 : isAlphanumeric c = isAlphanumeric d ∧
          (isAlphanumeric c = true → c = d) := hagree 0 (Nat.succ_pos _)
      have htail := ih ds (by simpa using hlen)
        (fun i hi => hagree (i + 1) (Nat.succ_lt_succ hi))
      simp only [List.map_cons]
      rw [htail]
      congr 1
      by_cases hc : isAlphanumeric c = true
      · have hd : isAlphanumeric d = true := h0.1 ▸ hc
        rw [if_pos hc, if_pos hd, h0.2 hc]
      · have hd : ¬isAlphanumeric d = true := h0.1 ▸ hc
        rw [if_neg hc, if_neg hd]

/-- C6: the cache-key derivation is not collision-free.  The distinct
identity components "a/b" and "a.b" sanitize to the same key, and in
general any two strings that agree positionally on which characters
are alphanumeric, and on those characters themselves, sanitize to the
same key. -/
theorem cleanPathStr_collision :
    (cleanPathStr "a/b" = cleanPathStr "a.b" ∧ "a/b" ≠ "a.b") ∧
    ∀ s1 s2 : String, s1.data.length = s2.data.length →
      (∀ i, i < s1.data.length →
        isAlphanumeric (s1.data.getD i ' ') = isAlphanumeric (s2.data.getD i ' ') ∧
        (isAlphanumeric (s1.data.getD i ' ') = true →
          s1.data.getD i ' ' = s2.data.getD i ' ')) →
      cleanPathStr s1 = cleanPathStr s2 := by
  constructor
  · exact ⟨by rfl, by decide⟩
  · intro s1 s2 hlen hagree
    unfold cleanPathStr
    rw [cleanChars_congr s1.data s2.data hlen hagree]

/-- Witness for C6 at another colliding pair. -/
theorem cleanPathStr_collision_witness : cleanPathStr "x-y" = cleanPathStr "x y" :=
  cleanPathStr_collision.2 "x-y" "x y" rfl (by decide)

/-- C7: the preview operation returns a map whose key list is exactly
the min(requested, available) most-recently-ordered names, and each
value is the newline-joined trimmed message text of the single fetched
page of its key, in ascending timestamp order with ties kept in page
order. -/
theorem buildLogstreamPreviews_spec
    (fetchPage : PageFetch) (logGroup : String) (logStreamNames : List String)
    (previewAmount : Nat) (n : Int) (pages : String → EventLog)
    (hnodup : logStreamNames.Nodup)
    (hfetch : ∀ s ∈ logStreamNames.reverse.take previewAmount,
      startsWithSlash s = false ∧
      fetchPage logGroup s none (some n) = Except.ok (pages s)) :
    ∃ m, buildLogstreamPreviews fetchPage logGroup logStreamNames previewAmount n =
        Except.ok m ∧
      m.map Prod.fst = logStreamNames.reverse.take previewAmount ∧
      m.length = min previewAmount logStreamNames.length ∧
      (m.map Prod.fst).Nodup ∧
      ∀ p ∈ m, ∃ sortedEvents : List Event,
        sortedEvents.Perm (pages p.1).events ∧
        List.Sorted eventTsLe sortedEvents ∧
        (∀ t : Nat, sortedEvents.filter (fun e => e.timestamp == t) =
          (pages p.1).events.filter (fun e => e.timestamp == t)) ∧
        p.2 = joinNewline (sortedEvents.map (fun e => rustTrim e.message)) := by
  have hrun := previewFanout_ok fetchPage logGroup n pages
    (logStreamNames.reverse.take previewAmount) hfetch
  have hkeys : ((logStreamNames.reverse.take previewAmount).map (fun s =>
      (s, getTextFromEvents (sortEventsByTimestamp (pages s).events)))).map
      Prod.fst = logStreamNames.reverse.take previewAmount := by
    rw [List.map_map]
    exact List.map_id _
  refine ⟨_, hrun, hkeys, ?_, ?_, ?_⟩
  · simp [List.length_take, List.length_reverse]
  · rw [hkeys]
    exact (List.nodup_reverse.mpr hnodup).sublist (List.take_sublist _ _)
  · intro p hp
    obtain ⟨s, hs, rfl⟩ := List.mem_map.mp hp
    refine ⟨sortEventsByTimestamp (pages s).events,
      List.perm_insertionSort eventTsLe _,
      List.sorted_insertionSort eventTsLe _, ?_, rfl⟩
    intro t
    refine insertionSort_filter_of_tied eventTsLe _ _ ?_
    intro a b ha hb
    have ha2 : a.timestamp = t := by simpa using ha
    have hb2 : b.timestamp = t := by simpa using hb
    show a.timestamp ≤ b.timestamp
    rw [ha2, hb2]

/-- Page contents used by the C7 witness: every stream answers with the
same two out-of-order events carrying padded messages. -/
def previewPages : String → EventLog :=
  fun _ => ⟨[⟨2, " b ", 0⟩, ⟨1, " a ", 0⟩], "fwd", "bwd"⟩

/-- Page-fetch behavior used by the C7 witness. -/
def previewPageFetch : PageFetch := fun _ s _ _ => Except.ok (previewPages s)

/-- Witness for C7 over three known names with a requested count of
two. -/
theorem buildLogstreamPreviews_spec_witness :
    ∃ m, buildLogstreamPreviews previewPageFetch "grp" ["s1", "s2", "s3"] 2 7 =
        Except.ok m ∧
      m.map Prod.fst = (["s1", "s2", "s3"] : List String).reverse.take 2 ∧
      m.length = min 2 (["s1", "s2", "s3"] : List String).length ∧
      (m.map Prod.fst).Nodup ∧
      ∀ p ∈ m, ∃ sortedEvents : List Event,
        sortedEvents.Perm (previewPages p.1).events ∧
        List.Sorted eventTsLe sortedEvents ∧
        (∀ t : Nat, sortedEvents.filter (fun e => e.timestamp == t) =
          (previewPages p.1).events.filter (fun e => e.timestamp == t)) ∧
        p.2 = joinNewline (sortedEvents.map (fun e => rustTrim e.message)) :=
  buildLogstreamPreviews_spec previewPageFetch "grp" ["s1", "s2", "s3"] 2 7
    previewPages (by decide) (by decide)

/-- Listing behavior returning, in one page, a stream created first
named "bb" and a stream created second named "aa". -/
def creationOrderListing : ListingFetch :=
  fun _ => Except.ok ⟨some [⟨some "bb", 1⟩, ⟨some "aa", 2⟩], none⟩

/-- C8 counterexample: the active stream-listing operation ignores the
creation-order key the upstream supplies.  With "bb" created before
"aa", creation order is ["bb", "aa"], but get_sorted_log_stream_names
returns the lexicographic order ["aa", "bb"]. -/
theorem getSortedLogStreamNames_ignores_creation_cex :
    getSortedLogStreamNames creationOrderListing 1 =
      some (Except.ok ["aa", "bb"]) ∧
    (["aa", "bb"] : List String) ≠ ["bb", "aa"] := by
  constructor
  · rfl
  · simp

/-- C8 amended: only the legacy get_sorted_log_stream_names_old sorts
by the creation-order key: it returns the names of a stable ascending
creation-time permutation of the parsed streams, projected to names
only; the active get_sorted_log_stream_names sorts lexicographically
(see the counterexample). -/
theorem getSortedLogStreamNamesOld_creation_sorted (streams : List LogStream) :
    ∃ sortedStreams : List LogStream,
      getSortedLogStreamNamesOld (Except.ok ⟨streams⟩) =
        Except.ok (sortedStreams.map (fun s => s.logStreamName)) ∧
      sortedStreams.Perm streams ∧ List.Sorted ctLe sortedStreams ∧
      ∀ t : Int, sortedStreams.filter (fun s => s.creationTime == t) =
        streams.filter (fun s => s.creationTime == t) := by
  refine ⟨List.insertionSort ctLe streams, rfl, List.perm_insertionSort ctLe _,
    List.sorted_insertionSort ctLe _, ?_⟩
  intro t
  refine insertionSort_filter_of_tied ctLe _ streams ?_
  intro a b ha hb
  have ha2 : a.creationTime = t := by simpa using ha
  have hb2 : b.creationTime = t := by simpa using hb
  show a.creationTime ≤ b.creationTime
  rw [ha2, hb2]

/-- Page-fetch behavior answering every request, whatever the limit,
with one event. -/
def smallPageFetch : PageFetch :=
  fun _ _ _ _ => Except.ok ⟨[⟨3, "m", 4⟩], "fwd", "bwd"⟩

/-- C9 counterexample: there is no bounds validation.  A preview fetch
with fetch_count 1000001 (far above any plausible ceiling) issues the
page request and returns its events with no configuration error, and a
preview with a non-positive stream count returns an empty map with no
error instead of failing. -/
theorem previewBounds_not_validated_cex :
    fetchFirstNEvents smallPageFetch "grp" "str" 1000001 =
      Except.ok [⟨3, "m", 4⟩] ∧
    buildLogstreamPreviews smallPageFetch "grp" ["s1", "s2"] 0 10 =
      Except.ok [] := by
  constructor
  · rfl
  · rfl

/-- C9 amended: the preview path performs no bounds validation at all:
fetch_first_n_events forwards any fetch count to the page fetch and
returns the sorted page, and a non-positive stream count yields an
empty preview map; neither case raises a configuration error. -/
theorem fetchFirstNEvents_no_bounds_check
    (fetchPage : PageFetch) (logGroup logStream : String) (limit : Int)
    (el : EventLog)
    (hs : startsWithSlash logStream = false)
    (hfetch : fetchPage logGroup logStream none (some limit) = Except.ok el) :
    fetchFirstNEvents fetchPage logGroup logStream limit =
      Except.ok (sortEventsByTimestamp el.events) ∧
    ∀ (names : List String) (n2 : Int),
      buildLogstreamPreviews fetchPage logGroup names 0 n2 = Except.ok [] := by
  constructor
  · simp [fetchFirstNEvents, hs, hfetch]
  · intro names n2
    rfl

/-- Witness for the amended C9 at an oversized fetch count. -/
theorem fetchFirstNEvents_no_bounds_check_witness :
    fetchFirstNEvents smallPageFetch "grp" "str" 99999 =
      Except.ok (sortEventsByTimestamp [⟨3, "m", 4⟩]) ∧
    ∀ (names : List String) (n2 : Int),
      buildLogstreamPreviews smallPageFetch "grp" names 0 n2 = Except.ok [] :=
  fetchFirstNEvents_no_bounds_check smallPageFetch "grp" "str" 99999
    ⟨[⟨3, "m", 4⟩], "fwd", "bwd"⟩ (by decide) rfl

/-- C10: for an identity whose stream name begins with the reserved
slash prefix, a readable cache entry is returned successfully by
fetch_entire_log_cached; the reserved-prefix precondition failure
occurs only on the miss path, where fetch_entire_log runs. -/
theorem fetchEntireLogCached_hit_skips_reserved_check
    (fetchPage : PageFetch) (logGroup logStream : String) (store : CacheStore)
    (fuel : Nat) (blob : List BlobToken) (evs : List Event)
    (hslash : startsWithSlash logStream = true)
    (hhit : store (cacheKey logGroup logStream) = some blob)
    (hblob : deserializeEvents blob = some evs) :
    fetchEntireLogCached fetchPage logGroup logStream true store fuel =
      some (Except.ok evs, [(cacheKey logGroup logStream, serializeEvents evs)]) ∧
    ∀ store2 : CacheStore, store2 (cacheKey logGroup logStream) = none →
      fetchEntireLogCached fetchPage logGroup logStream true store2 fuel =
        some (Except.error
          ("log_stream should probably not begin with / -> " ++ logStream), []) := by
  constructor
  · unfold fetchEntireLogCached
    simp [hhit, hblob]
  · intro store2 hmiss
    unfold fetchEntireLogCached
    simp [hmiss, fetchEntireLog, hslash]

/-- A store holding a readable entry for the slash-prefixed identity
(grp, /str). -/
def slashHitStore : CacheStore :=
  fun k => if k = cacheKey "grp" "/str" then
    some (serializeEvents [⟨7, "x", 8⟩]) else none

/-- Witness for C10 at the identity (grp, /str). -/
theorem fetchEntireLogCached_hit_skips_reserved_check_witness :
    fetchEntireLogCached failingPageFetch "grp" "/str" true slashHitStore 1 =
      some (Except.ok [⟨7, "x", 8⟩],
        [(cacheKey "grp" "/str", serializeEvents [⟨7, "x", 8⟩])]) ∧
    ∀ store2 : CacheStore, store2 (cacheKey "grp" "/str") = none →
      fetchEntireLogCached failingPageFetch "grp" "/str" true store2 1 =
        some (Except.error
          ("log_stream should probably not begin with / -> " ++ "/str"), []) :=
  fetchEntireLogCached_hit_skips_reserved_check failingPageFetch "grp" "/str"
    slashHitStore 1 (serializeEvents [⟨7, "x", 8⟩]) [⟨7, "x", 8⟩]
    (by decide) (by rfl) (by rfl)

/-- Witness for the amended C4 at the concrete hit. -/
theorem fetchEntireLogCached_always_writes_on_success_witness :
    [(cacheKey "group-a" "stream-a", serializeEvents [⟨5, "hello", 6⟩])] =
      [(cacheKey "group-a" "stream-a",
        serializeEvents [(⟨5, "hello", 6⟩ : Event)])] :=
  (fetchEntireLogCached_always_writes_on_success failingPageFetch "group-a"
    "stream-a" hitStore 0 (Except.ok [⟨5, "hello", 6⟩])
    [(cacheKey "group-a" "stream-a", serializeEvents [⟨5, "hello", 6⟩])]
    (by rfl)).1 [⟨5, "hello", 6⟩] rfl

end AwsLogs
